import Mathlib

/-!
Verification development for the dose-volume slicing and colormap-rendering
pipeline of a BNCT planning system.  The JavaScript sources embedded here are

* `generateHeatmapImage` and `processDoseDataFile` (dose-image post-processing
  module): pixel-by-pixel application of the npm `colormap` package's 256-shade
  "hot" table to a bitmap, and the per-view loop that overwrites each persisted
  slice file with its heatmap;
* the slice-collection / validation steps of the `upload-nii`,
  `generate-wholebody-dose-map` and `process-npy` Express handlers
  (`backend/index.js`).

JavaScript numbers are modelled as exact rationals (`ℚ`); all quantities the
claims touch stay far from binary-rounding boundaries, and 8-bit channel
values are natural numbers.  Fallible operations (out-of-bounds table lookup,
script failure, request rejection) are modelled with `Option` / `Except`.
Components of the pipeline that live in the repository's Python scripts
(`nii_preview.py`, `dose_to_png.py`, `resample_npy_to_nii.py`), which are not
part of the sources available here, are modelled from the specification and
carry a doc comment saying so.
-/

/-- An RGBA pixel as Jimp exposes it via `Jimp.intToRGBA`: four 8-bit
channels.  The 8-bit range is an invariant supplied by Jimp, stated as a
hypothesis where a theorem needs it. -/
structure RGBA where
  r : ℕ
  g : ℕ
  b : ℕ
  a : ℕ
deriving DecidableEq

/-- A Jimp bitmap: its dimensions and the pixel grid.  `pixels` lists the
pixels row-major (y outer, x inner), which is exactly the order in which
`generateHeatmapImage` reads them with `getPixelColor` and writes them back
with `setPixelColor` (`x = i % width`, `y = floor(i / width)`). -/
structure Image where
  width : ℕ
  height : ℕ
  pixels : List RGBA
deriving DecidableEq

/-- A colormap anchor stop of the npm `colormap` package's colour-scale
table: a fractional position in `[0,1]` and an RGB anchor colour. -/
structure ColorStop where
  pos : ℚ
  rgb : ℕ × ℕ × ℕ
deriving DecidableEq

/-- The `hot` entry of the `colormap` package's colour-scale table:
black → red → yellow → white. -/
def hotStops : List ColorStop :=
  [⟨0, (0, 0, 0)⟩, ⟨3/10, (230, 0, 0)⟩, ⟨6/10, (255, 210, 0)⟩, ⟨1, (255, 255, 255)⟩]

/-- JavaScript `Math.round` on the (nonnegative) quantities appearing here:
round half toward positive infinity. -/
def jsRound (q : ℚ) : ℤ := ⌊q + 1/2⌋

/-- Linear interpolation as the `lerp` package used by `colormap` computes it. -/
def lerp (a b t : ℚ) : ℚ := a * (1 - t) + b * t

/-- One interpolation segment of `colormap`'s table construction: `nsteps`
colours running from `c0` toward `c1`, the colour at step `j` being the
rounded componentwise `lerp` at `amt = j / nsteps`. -/
def segColors (c0 c1 : ℕ × ℕ × ℕ) (nsteps : ℕ) : List (ℕ × ℕ × ℕ) :=
  (List.range nsteps).map fun (j : ℕ) =>
    let amt : ℚ := (j : ℚ) / (nsteps : ℚ)
    ((jsRound (lerp c0.1 c1.1 amt)).toNat,
     (jsRound (lerp c0.2.1 c1.2.1 amt)).toNat,
     (jsRound (lerp c0.2.2 c1.2.2 amt)).toNat)

/-- Concatenation of the interpolation segments between consecutive anchor
points (each point paired with its discretized table index). -/
def buildSegments : List (ℕ × (ℕ × ℕ × ℕ)) → List (ℕ × ℕ × ℕ)
  | p0 :: p1 :: rest => segColors p0.2 p1.2 (p1.1 - p0.1) ++ buildSegments (p1 :: rest)
  | _ => []

/-- The npm `colormap` package's table construction (`createColormap`): each
stop's position is scaled to `nshades - 1` and rounded, the gaps between
consecutive scaled indices are filled by linear interpolation, and the final
stop's colour is appended as the last entry.  (The package also carries an
alpha channel per entry; `generateHeatmapImage` reads only components 0..2 of
an entry and forces alpha 255 itself, so entries are modelled as RGB.) -/
def createColormap (stops : List ColorStop) (nshades : ℕ) : List (ℕ × ℕ × ℕ) :=
  let n : ℕ := nshades - 1
  let pts : List (ℕ × (ℕ × ℕ × ℕ)) :=
    stops.map fun s => ((jsRound (s.pos * (n : ℚ))).toNat, s.rgb)
  buildSegments pts ++
    (match stops.getLast? with
     | some s => [s.rgb]
     | none => [])

/-- The 256-shade hot table built by `generateHeatmapImage`'s call
`colormap({colormap: 'hot', nshades: 256, format: 'rgba', alpha: 1})`. -/
def hotColormap : List (ℕ × ℕ × ℕ) := createColormap hotStops 256

/-- Colour-table index computed per pixel by `generateHeatmapImage`:
`Math.floor((pixel.r / 255) * (colorMap.length - 1))`. -/
def hotIndex (r : ℕ) : ℕ :=
  (⌊((r : ℚ) / 255) * ((hotColormap.length : ℚ) - 1)⌋).toNat

/-- The per-pixel body of `generateHeatmapImage`'s loop: look the pixel's red
channel up in the hot table and rebuild the pixel from the table colour with
alpha 255.  `none` models the TypeError raised when `colorMap[...]` is out of
bounds (never reached for 8-bit reds, proved below). -/
def heatPixel (p : RGBA) : Option RGBA :=
  (hotColormap[hotIndex p.r]?).map fun c => ⟨c.1, c.2.1, c.2.2, 255⟩

/-- The whole pixel loop: maps `heatPixel` over the row-major pixel list,
failing if any single lookup fails. -/
def heatPixels : List RGBA → Option (List RGBA)
  | [] => some []
  | p :: ps =>
    match heatPixel p, heatPixels ps with
    | some q, some qs => some (q :: qs)
    | _, _ => none

/-- Value of `generateHeatmapImage(image)`: the bitmap whose row-major pixels
are the heat-mapped pixels of the input, with the input's dimensions. -/
def generateHeatmapImage (img : Image) : Option Image :=
  (heatPixels img.pixels).map fun ps => ⟨img.width, img.height, ps⟩

/-- The call as the JavaScript caller observes it: the loop writes through
`image.setPixelColor` into the argument object itself and the function returns
that same object, so after the call the caller's image variable and the
returned value are one object holding the mapped pixels.  First component:
the returned image; second component: the state of the argument after the
call. -/
def generateHeatmapImageCall (img : Image) : Option (Image × Image) :=
  match generateHeatmapImage img with
  | some out => some (out, out)
  | none => none

/-- State of the persisted slice files of one view after the per-file loop of
`processDoseDataFile` runs over them, paired with whether the loop completed.
A file is `some img` when readable with content `img`, `none` when reading it
fails (`Jimp.read` rejects).  The loop reads each file in order, renders its
heatmap, and overwrites the file in place (`heatmapImage.writeAsync(filePath)`)
before moving to the next; the first failure aborts the loop, leaving the
files already processed overwritten and the rest untouched. -/
def processView : List (Option Image) → List (Option Image) × Bool
  | [] => ([], true)
  | f :: fs =>
    match f with
    | none => (none :: fs, false)
    | some img =>
      match generateHeatmapImage img with
      | none => (some img :: fs, false)
      | some out =>
        let (rest, ok) := processView fs
        (some out :: rest, ok)

/-- Slice-collection and validation step of the `generate-wholebody-dose-map`
handler (`backend/index.js`): a missing or empty per-view directory
contributes an empty list, but if all three views are empty the handler
throws `未生成任何剂量切片` and the request fails with HTTP 500. -/
def collectWholeBodyDoseViews (axial coronal sagittal : List String) :
    Except String (List String × List String × List String) :=
  if axial.length + coronal.length + sagittal.length = 0 then
    Except.error "未生成任何剂量切片，请检查dose_to_png.py的执行日志"
  else
    Except.ok (axial, coronal, sagittal)

/-- Validation step of the `process-npy` handler (`backend/index.js`) on the
per-view image lists returned by `processDoseDataFile`: if no view produced
any image the handler throws `未生成任何剂量图像` and the request fails. -/
def validateProcessNpyImages (axial coronal sagittal : List String) :
    Except String (List String × List String × List String) :=
  if axial.length + coronal.length + sagittal.length = 0 then
    Except.error "未生成任何剂量图像"
  else
    Except.ok (axial, coronal, sagittal)

/-- JavaScript string comparison `a < b` on sequences of UTF-16 code units:
the order used by the default comparator of `Array.prototype.sort`, which the
`upload-nii` and `generate-wholebody-dose-map` handlers apply to the
directory listing (`files.sort()`). -/
def strLt : List ℕ → List ℕ → Bool
  | _, [] => false
  | [], _ :: _ => true
  | a :: as, b :: bs => if a < b then true else if b < a then false else strLt as bs

/-- Modelled from the spec: the SliceRenderer filename scheme
`<zero-padded-index>.<ext>` (the renderer itself lives in the repository's
Python scripts `nii_preview.py` / `dose_to_png.py`, which are not among the
sources here).  `padDigits w i` is the width-`w` zero-padded decimal form of
`i`, most significant digit first, as UTF-16 code units (digit `d` is code
`48 + d`). -/
def padDigits : ℕ → ℕ → List ℕ
  | 0, _ => []
  | w + 1, i => (48 + i / 10 ^ w) :: padDigits w (i % 10 ^ w)

/-- Modelled from the spec: the full per-slice filename, zero-padded index
followed by the extension. -/
def sliceFilename (w : ℕ) (ext : List ℕ) (i : ℕ) : List ℕ :=
  padDigits w i ++ ext

/-- Modelled from the spec: the filenames a rendered slice set persists,
one per slice index `0 .. n-1`. -/
def sliceFilenames (n w : ℕ) (ext : List ℕ) : List (List ℕ) :=
  (List.range n).map (sliceFilename w ext)

/-- Clamp to the unit interval. -/
def clamp01 (q : ℚ) : ℚ := max 0 (min 1 q)

/-- Modelled from the spec: the ColorMapper normalization step
`t = clamp((value - vmin) / (vmax - vmin), 0, 1)` with the documented
degenerate policy that `vmax = vmin` sends every value to `t = 0` (the
script computing it is not among the sources here). -/
def normalizeValue (value vmin vmax : ℚ) : ℚ :=
  if vmax = vmin then 0 else clamp01 ((value - vmin) / (vmax - vmin))

/-- Failure taxonomy of the ColorMapper. -/
inductive MapError where
  | UnknownColormap
deriving DecidableEq

/-- The `jet` anchor stops: blue → cyan → green → yellow → orange → red. -/
def jetStops : List ColorStop :=
  [⟨0, (0, 0, 255)⟩, ⟨1/5, (0, 255, 255)⟩, ⟨2/5, (0, 255, 0)⟩,
   ⟨3/5, (255, 255, 0)⟩, ⟨4/5, (255, 165, 0)⟩, ⟨1, (255, 0, 0)⟩]

/-- The `viridis` endpoint anchors: dark purple → yellow. -/
def viridisStops : List ColorStop :=
  [⟨0, (68, 1, 84)⟩, ⟨1, (253, 231, 37)⟩]

/-- The `plasma` endpoint anchors: dark blue → yellow. -/
def plasmaStops : List ColorStop :=
  [⟨0, (13, 8, 135)⟩, ⟨1, (240, 249, 33)⟩]

/-- Modelled from the spec: the table of named colour scales the ColorMapper
accepts — at minimum `hot`, `jet`, `viridis`, `plasma`; any other name is
unsupported.  The `hot` entry is the table the repository's JavaScript
actually uses. -/
def colorScaleStops : String → Option (List ColorStop)
  | "hot" => some hotStops
  | "jet" => some jetStops
  | "viridis" => some viridisStops
  | "plasma" => some plasmaStops
  | _ => none

/-- Modelled from the spec: `ColorMapper.map(slice, colormap, vmin, vmax)`.
An unknown colormap name fails with `UnknownColormap`; otherwise every value
is normalized by `normalizeValue` and looked up in the named 256-shade table
with the source's index rule `floor(t * (length - 1))` (taken from
`generateHeatmapImage`; the lookup is always in bounds, so the `getD`
default is never used). -/
def ColorMapper.map (slice : List (List ℚ)) (cmap : String) (vmin vmax : ℚ) :
    Except MapError (List (List (ℕ × ℕ × ℕ))) :=
  match colorScaleStops cmap with
  | none => Except.error MapError.UnknownColormap
  | some stops =>
    let table := createColormap stops 256
    Except.ok (slice.map (List.map fun v =>
      let t := normalizeValue v vmin vmax
      table.getD ((⌊t * ((table.length : ℚ) - 1)⌋).toNat) (0, 0, 0)))

/-- Entry of a 2D slice or raster at row `i`, column `j`. -/
def sliceGet2 {α : Type} (s : List (List α)) (i j : ℕ) : Option α :=
  s[i]?.bind fun row => row[j]?

/-! ### Evaluation lemmas for the hot colour table

`Rat` arithmetic is carried out by proof (the concrete table entries the
claims mention are pinned down through `Int.floor_eq_iff`), not by kernel
evaluation. -/

theorem jsRound_eq_of (q : ℚ) (z : ℤ) (h1 : (z : ℚ) ≤ q + 1/2) (h2 : q + 1/2 < (z : ℚ) + 1) :
    jsRound q = z := by
  rw [jsRound]
  exact Int.floor_eq_iff.mpr ⟨h1, h2⟩

theorem jsRound_natCast (n : ℕ) : jsRound (n : ℚ) = n := by
  apply jsRound_eq_of
  · push_cast; linarith
  · push_cast; linarith

theorem lerp_zero (a b : ℚ) : lerp a b 0 = a := by
  simp [lerp]

theorem segColors_length (c0 c1 : ℕ × ℕ × ℕ) (n : ℕ) : (segColors c0 c1 n).length = n := by
  rw [segColors, List.length_map, List.length_range]

theorem segColors_getElem?_zero (c0 c1 : ℕ × ℕ × ℕ) (n : ℕ) (h : 0 < n) :
    (segColors c0 c1 n)[0]? = some c0 := by
  rw [segColors, List.getElem?_map, List.getElem?_range h]
  simp only [Option.map_some']
  have hz : ((0 : ℕ) : ℚ) / (n : ℚ) = 0 := by norm_num
  rw [hz, lerp_zero, lerp_zero, lerp_zero, jsRound_natCast, jsRound_natCast, jsRound_natCast]
  simp

/-- The anchor stops of the hot table land at discretized indices
0, 77, 153, 255 (`Math.round(0.3 * 255) = 77`, `Math.round(0.6 * 255) = 153`). -/
theorem hotColormap_eq :
    hotColormap =
      (segColors (0, 0, 0) (230, 0, 0) 77 ++
        (segColors (230, 0, 0) (255, 210, 0) 76 ++
          (segColors (255, 210, 0) (255, 255, 255) 102 ++ []))) ++
        [(255, 255, 255)] := by
  rw [hotColormap, createColormap]
  have h0 : jsRound ((0 : ℚ) * ((256 - 1 : ℕ) : ℚ)) = 0 := by
    apply jsRound_eq_of <;> · push_cast; norm_num
  have h1 : jsRound ((3/10 : ℚ) * ((256 - 1 : ℕ) : ℚ)) = 77 := by
    apply jsRound_eq_of <;> · push_cast; norm_num
  have h2 : jsRound ((6/10 : ℚ) * ((256 - 1 : ℕ) : ℚ)) = 153 := by
    apply jsRound_eq_of <;> · push_cast; norm_num
  have h3 : jsRound ((1 : ℚ) * ((256 - 1 : ℕ) : ℚ)) = 255 := by
    apply jsRound_eq_of <;> · push_cast; norm_num
  simp only [hotStops, List.map_cons, List.map_nil, h0, h1, h2, h3, buildSegments,
    List.getLast?]
  norm_num [buildSegments, show Int.toNat 77 = 77 from rfl, show Int.toNat 153 = 153 from rfl,
    show Int.toNat 255 = 255 from rfl]

theorem hotColormap_length : hotColormap.length = 256 := by
  rw [hotColormap_eq]
  simp [segColors_length]

theorem hotColormap_getElem?_zero : hotColormap[0]? = some (0, 0, 0) := by
  rw [hotColormap_eq, List.getElem?_append_left, List.getElem?_append_left]
  · exact segColors_getElem?_zero _ _ _ (by norm_num)
  · rw [segColors_length]; norm_num
  · simp [segColors_length]

theorem hotColormap_getElem?_last : hotColormap[255]? = some (255, 255, 255) := by
  rw [hotColormap_eq, List.getElem?_append_right]
  · simp [segColors_length]
  · simp [segColors_length]

/-! ### The per-pixel mapping -/

theorem hotIndex_eq (r : ℕ) : hotIndex r = r := by
  rw [hotIndex, hotColormap_length]
  have h : ((r : ℚ) / 255) * (((256 : ℕ) : ℚ) - 1) = (r : ℚ) := by
    push_cast
    rw [show ((256 : ℚ) - 1) = 255 by norm_num]
    exact div_mul_cancel₀ _ (by norm_num)
  rw [h, Int.floor_natCast, Int.toNat_natCast]

theorem heatPixel_eq_of_le (p : RGBA) (h : p.r ≤ 255) :
    ∃ c, hotColormap[p.r]? = some c ∧ heatPixel p = some ⟨c.1, c.2.1, c.2.2, 255⟩ := by
  have hl : p.r < hotColormap.length := by rw [hotColormap_length]; omega
  refine ⟨hotColormap[p.r], List.getElem?_eq_getElem hl, ?_⟩
  rw [heatPixel, hotIndex_eq, List.getElem?_eq_getElem hl, Option.map_some']

theorem heatPixel_alpha (p q : RGBA) (h : heatPixel p = some q) : q.a = 255 := by
  rw [heatPixel] at h
  cases hc : hotColormap[hotIndex p.r]? with
  | none => rw [hc] at h; simp at h
  | some c =>
    rw [hc, Option.map_some'] at h
    cases h
    rfl

theorem heatPixel_congr_red (p q : RGBA) (h : p.r = q.r) : heatPixel p = heatPixel q := by
  rw [heatPixel, heatPixel, h]

theorem heatPixels_getElem? (ps : List RGBA) (qs : List RGBA) (h : heatPixels ps = some qs)
    (i : ℕ) : qs[i]? = ps[i]?.bind heatPixel := by
  induction ps generalizing qs i with
  | nil =>
    rw [heatPixels] at h
    cases h
    simp
  | cons p ps ih =>
    rw [heatPixels] at h
    cases hp : heatPixel p with
    | none => rw [hp] at h; simp at h
    | some q =>
      cases hps : heatPixels ps with
      | none => rw [hp, hps] at h; simp at h
      | some qs' =>
        rw [hp, hps] at h
        cases h
        cases i with
        | zero => simp [hp]
        | succ n => simpa using ih qs' hps n

theorem heatPixels_isSome (ps : List RGBA) (h : ∀ p ∈ ps, p.r ≤ 255) :
    ∃ qs, heatPixels ps = some qs ∧ qs.length = ps.length := by
  induction ps with
  | nil => exact ⟨[], rfl, rfl⟩
  | cons p ps ih =>
    obtain ⟨qs, hqs, hlen⟩ := ih fun x hx => h x (List.mem_cons_of_mem _ hx)
    obtain ⟨c, _, hc⟩ := heatPixel_eq_of_le p (h p (List.mem_cons_self _ _))
    refine ⟨⟨c.1, c.2.1, c.2.2, 255⟩ :: qs, ?_, by simp [hlen]⟩
    rw [heatPixels, hc, hqs]

theorem heatPixels_congr_red (ps qs : List RGBA) (h : ps.map RGBA.r = qs.map RGBA.r) :
    heatPixels ps = heatPixels qs := by
  induction ps generalizing qs with
  | nil => cases qs with
    | nil => rfl
    | cons q qs => simp at h
  | cons p ps ih =>
    cases qs with
    | nil => simp at h
    | cons q qs =>
      simp only [List.map_cons, List.cons.injEq] at h
      rw [heatPixels, heatPixels, heatPixel_congr_red p q h.1, ih qs h.2]

/-! ### Lexical order on zero-padded filenames -/

theorem strLt_irrefl (a : List ℕ) : strLt a a = false := by
  induction a with
  | nil => rfl
  | cons x xs ih => simp [strLt, ih]

theorem strLt_asymm (a b : List ℕ) : strLt a b = true → strLt b a = true → False := by
  induction a generalizing b with
  | nil =>
    intro hab hba
    cases b with
    | nil => simp [strLt] at hab
    | cons y ys => simp [strLt] at hba
  | cons x xs ih =>
    intro hab hba
    cases b with
    | nil => simp [strLt] at hab
    | cons y ys =>
      simp only [strLt] at hab hba
      split_ifs at hab hba <;> first | omega | exact ih ys hab hba

theorem strLt_append_same (a b e : List ℕ) (h : a.length = b.length) :
    strLt (a ++ e) (b ++ e) = strLt a b := by
  induction a generalizing b with
  | nil =>
    cases b with
    | nil => simpa using strLt_irrefl e
    | cons y ys => simp at h
  | cons x xs ih =>
    cases b with
    | nil => simp at h
    | cons y ys =>
      simp only [List.cons_append, strLt, List.append_eq]
      rw [ih ys (by simpa using h)]

theorem padDigits_length (w i : ℕ) : (padDigits w i).length = w := by
  induction w generalizing i with
  | zero => rfl
  | succ w ih => simp [padDigits, ih]

theorem strLt_padDigits (w i j : ℕ) (hi : i < 10 ^ w) (hj : j < 10 ^ w) :
    (strLt (padDigits w i) (padDigits w j) = true) ↔ i < j := by
  induction w generalizing i j with
  | zero =>
    rw [pow_zero] at hi hj
    have hi0 : i = 0 := by omega
    have hj0 : j = 0 := by omega
    subst hi0; subst hj0
    decide
  | succ w ih =>
    rw [padDigits, padDigits]
    simp only [strLt]
    by_cases h1 : i / 10 ^ w < j / 10 ^ w
    · rw [if_pos (by omega)]
      simp only [true_iff]
      exact Nat.lt_of_div_lt_div h1
    · by_cases h2 : j / 10 ^ w < i / 10 ^ w
      · rw [if_neg (by omega), if_pos (by omega)]
        simp only [Bool.false_eq_true, false_iff, not_lt]
        exact (Nat.lt_of_div_lt_div h2).le
      · have hd : i / 10 ^ w = j / 10 ^ w := by omega
        rw [if_neg (by omega), if_neg (by omega),
          ih (i % 10 ^ w) (j % 10 ^ w) (Nat.mod_lt _ (by positivity)) (Nat.mod_lt _ (by positivity))]
        have key : ∀ C im jm : ℕ, im < jm ↔ C + im < C + jm := by omega
        rw [key (10 ^ w * (i / 10 ^ w)) (i % 10 ^ w) (j % 10 ^ w),
          Nat.div_add_mod, hd, Nat.div_add_mod]

theorem sliceFilenames_sorted (n w : ℕ) (ext : List ℕ) (hn : n ≤ 10 ^ w) :
    List.Sorted (fun a b => strLt a b = true) (sliceFilenames n w ext) := by
  rw [sliceFilenames, List.Sorted, List.pairwise_map]
  refine List.Pairwise.imp_of_mem ?_ (List.sorted_lt_range n)
  intro a b ha hb hab
  have ha' : a < n := List.mem_range.mp ha
  have hb' : b < n := List.mem_range.mp hb
  rw [sliceFilename, sliceFilename,
    strLt_append_same _ _ _ (by rw [padDigits_length, padDigits_length])]
  exact (strLt_padDigits w a b (by omega) (by omega)).mpr hab

/-! ### Evaluation helpers for the modelled ColorMapper and for concrete calls -/

theorem colorScaleStops_hot : colorScaleStops "hot" = some hotStops := rfl

theorem map_hot_ok (s : List (List ℚ)) (vmin vmax : ℚ) :
    ColorMapper.map s "hot" vmin vmax = Except.ok (s.map (List.map fun v =>
      hotColormap.getD
        ((⌊normalizeValue v vmin vmax * ((hotColormap.length : ℚ) - 1)⌋).toNat) (0, 0, 0))) := by
  rw [ColorMapper.map, colorScaleStops_hot]
  rfl

theorem hotColormap_getD_zero : hotColormap.getD 0 (0, 0, 0) = (0, 0, 0) := by
  rw [List.getD_eq_getElem?_getD, hotColormap_getElem?_zero]
  rfl

theorem hotColormap_getD_last : hotColormap.getD 255 (0, 0, 0) = (255, 255, 255) := by
  rw [List.getD_eq_getElem?_getD, hotColormap_getElem?_last]
  rfl

theorem floor_zero_shade : (⌊(0 : ℚ) * ((hotColormap.length : ℚ) - 1)⌋).toNat = 0 := by
  rw [zero_mul, Int.floor_zero]
  rfl

theorem floor_one_shade : (⌊(1 : ℚ) * ((hotColormap.length : ℚ) - 1)⌋).toNat = 255 := by
  rw [one_mul, hotColormap_length,
    show (((256 : ℕ) : ℚ) - 1) = ((255 : ℕ) : ℚ) by push_cast; norm_num,
    Int.floor_natCast, Int.toNat_natCast]

theorem sliceGet2_map {α β : Type} (f : α → β) (s : List (List α)) (i j : ℕ) :
    sliceGet2 (s.map (List.map f)) i j = (sliceGet2 s i j).map f := by
  rw [sliceGet2, sliceGet2, List.getElem?_map]
  cases s[i]? with
  | none => rfl
  | some row => simp [List.getElem?_map]

theorem generateHeatmapImage_black (w h g b a : ℕ) :
    generateHeatmapImage ⟨w, h, [⟨0, g, b, a⟩]⟩ = some ⟨w, h, [⟨0, 0, 0, 255⟩]⟩ := by
  have h1 : heatPixel ⟨0, g, b, a⟩ = some ⟨0, 0, 0, 255⟩ := by
    rw [heatPixel]
    rw [show (RGBA.mk 0 g b a).r = 0 from rfl, hotIndex_eq, hotColormap_getElem?_zero]
    rfl
  rw [generateHeatmapImage]
  rw [show (Image.mk w h [⟨0, g, b, a⟩]).pixels = [⟨0, g, b, a⟩] from rfl]
  rw [heatPixels, h1, heatPixels]
  rfl

theorem normalizeValue_bot : normalizeValue 0 0 15 = 0 := by
  rw [normalizeValue, if_neg (by norm_num : (15 : ℚ) ≠ 0), clamp01]
  norm_num

theorem normalizeValue_top : normalizeValue 15 0 15 = 1 := by
  rw [normalizeValue, if_neg (by norm_num : (15 : ℚ) ≠ 0), clamp01]
  norm_num

/-! ### The claims -/

/-- C1: for every value and every normalization range, the ColorMapper
normalization computes `t = clamp((value - vmin) / (vmax - vmin), 0, 1)`; in
the degenerate case `vmax = vmin` every value maps to `t = 0` and the
degenerate-range call does not raise (it returns successfully).  The third
conjunct ties the in-source instance to the formula: the value `r / 255`
computed by `generateHeatmapImage` for an 8-bit red `r` is exactly this
normalization at `vmin = 0`, `vmax = 255`. -/
theorem c1_normalization_clamp (value vmin vmax : ℚ) (r : ℕ) (hr : r ≤ 255) :
    (vmax = vmin → normalizeValue value vmin vmax = 0) ∧
      (vmax ≠ vmin →
        normalizeValue value vmin vmax = clamp01 ((value - vmin) / (vmax - vmin))) ∧
      (r : ℚ) / 255 = normalizeValue (r : ℚ) 0 255 ∧
      (ColorMapper.map [[value]] "hot" vmin vmin).isOk = true := by
  refine ⟨fun h => by rw [normalizeValue, if_pos h],
    fun h => by rw [normalizeValue, if_neg h], ?_, ?_⟩
  · rw [normalizeValue, if_neg (by norm_num : (255 : ℚ) ≠ 0), clamp01, sub_zero, sub_zero,
      min_eq_right, max_eq_right]
    · positivity
    · rw [div_le_one (by norm_num : (0 : ℚ) < 255)]
      exact_mod_cast hr
  · rw [map_hot_ok]
    rfl

/-- Witness for C1 at `value = 3`, `vmin = vmax = 5`, `r = 10`. -/
theorem c1_normalization_clamp_witness :
    ((5 : ℚ) = 5 → normalizeValue 3 5 5 = 0) ∧
      ((5 : ℚ) ≠ 5 → normalizeValue 3 5 5 = clamp01 ((3 - 5) / (5 - 5))) ∧
      ((10 : ℕ) : ℚ) / 255 = normalizeValue ((10 : ℕ) : ℚ) 0 255 ∧
      (ColorMapper.map [[(3 : ℚ)]] "hot" 5 5).isOk = true :=
  c1_normalization_clamp 3 5 5 10 (by norm_num)

/-- C2: zero-padded slice filenames make lexical order coincide with slice
index order: the canonical filename sequence is strictly sorted in the
JavaScript string order, and any permutation of it (a directory listing in
arbitrary order) that is lexically sorted equals the canonical sequence — so
the handlers' plain `files.sort()` reconstructs ascending slice-index
order. -/
theorem c2_lexical_sort_is_index_order (n w : ℕ) (ext : List ℕ) (hn : n ≤ 10 ^ w) :
    List.Sorted (fun a b => strLt a b = true) (sliceFilenames n w ext) ∧
      ∀ l : List (List ℕ), l.Perm (sliceFilenames n w ext) →
        List.Sorted (fun a b => strLt a b = true) l → l = sliceFilenames n w ext := by
  refine ⟨sliceFilenames_sorted n w ext hn, fun l hperm hsort => ?_⟩
  haveI : IsAntisymm (List ℕ) (fun a b => strLt a b = true) :=
    ⟨fun a b hab hba => (strLt_asymm a b hab hba).elim⟩
  exact List.eq_of_perm_of_sorted hperm hsort (sliceFilenames_sorted n w ext hn)

/-- Witness for C2: three slices, width-3 padding, extension `.png`. -/
theorem c2_lexical_sort_is_index_order_witness :
    [[48, 48, 48, 46, 112, 110, 103], [48, 48, 49, 46, 112, 110, 103],
        [48, 48, 50, 46, 112, 110, 103]] = sliceFilenames 3 3 [46, 112, 110, 103] :=
  (c2_lexical_sort_is_index_order 3 3 [46, 112, 110, 103] (by norm_num)).2
    [[48, 48, 48, 46, 112, 110, 103], [48, 48, 49, 46, 112, 110, 103],
      [48, 48, 50, 46, 112, 110, 103]]
    (by decide) (by decide)

/-- C3: rendering the 4x4 slice of values 0..15 with colormap hot, vmin 0,
vmax 15: the pixel holding value 0 gets the hot map's first stop colour
(black) and the pixel holding value 15 gets its last stop colour (white). -/
theorem c3_hot_endpoints_on_4x4 :
    hotStops.head?.map ColorStop.rgb = some (0, 0, 0) ∧
      hotStops.getLast?.map ColorStop.rgb = some (255, 255, 255) ∧
      ((ColorMapper.map [[0, 1, 2, 3], [4, 5, 6, 7], [8, 9, 10, 11], [12, 13, 14, 15]]
          "hot" 0 15).toOption.bind fun o => sliceGet2 o 0 0) = some (0, 0, 0) ∧
      ((ColorMapper.map [[0, 1, 2, 3], [4, 5, 6, 7], [8, 9, 10, 11], [12, 13, 14, 15]]
          "hot" 0 15).toOption.bind fun o => sliceGet2 o 3 3) = some (255, 255, 255) := by
  refine ⟨rfl, rfl, ?_, ?_⟩
  · rw [map_hot_ok]
    simp only [Except.toOption, Option.some_bind]
    rw [sliceGet2_map,
      show sliceGet2 [[(0 : ℚ), 1, 2, 3], [4, 5, 6, 7], [8, 9, 10, 11], [12, 13, 14, 15]] 0 0
        = some 0 from rfl,
      Option.map_some', normalizeValue_bot, floor_zero_shade, hotColormap_getD_zero]
  · rw [map_hot_ok]
    simp only [Except.toOption, Option.some_bind]
    rw [sliceGet2_map,
      show sliceGet2 [[(0 : ℚ), 1, 2, 3], [4, 5, 6, 7], [8, 9, 10, 11], [12, 13, 14, 15]] 3 3
        = some 15 from rfl,
      Option.map_some', normalizeValue_top, floor_one_shade, hotColormap_getD_last]

/-- C4: the modelled ColorMapper accepts the names hot, jet, viridis and
plasma and fails with UnknownColormap on every name outside the supported
table. -/
theorem c4_unknown_colormap_rejected (name : String) (s : List (List ℚ)) (vmin vmax : ℚ)
    (h : colorScaleStops name = none) :
    ColorMapper.map s name vmin vmax = Except.error MapError.UnknownColormap ∧
      (ColorMapper.map s "hot" vmin vmax).isOk = true ∧
      (ColorMapper.map s "jet" vmin vmax).isOk = true ∧
      (ColorMapper.map s "viridis" vmin vmax).isOk = true ∧
      (ColorMapper.map s "plasma" vmin vmax).isOk = true := by
  refine ⟨?_, rfl, rfl, rfl, rfl⟩
  rw [ColorMapper.map, h]

/-- Witness for C4 at the unsupported name `gray`. -/
theorem c4_unknown_colormap_rejected_witness :
    ColorMapper.map [[(1 : ℚ)]] "gray" 0 1 = Except.error MapError.UnknownColormap ∧
      (ColorMapper.map [[(1 : ℚ)]] "hot" 0 1).isOk = true ∧
      (ColorMapper.map [[(1 : ℚ)]] "jet" 0 1).isOk = true ∧
      (ColorMapper.map [[(1 : ℚ)]] "viridis" 0 1).isOk = true ∧
      (ColorMapper.map [[(1 : ℚ)]] "plasma" 0 1).isOk = true :=
  c4_unknown_colormap_rejected "gray" [[(1 : ℚ)]] 0 1 rfl

/-- C5: the colour mapping is deterministic.  (1) The in-source call on
identical bitmaps yields identical output; (2) across any two frames, pixels
with equal red values receive the identical colour (the per-session hot table
is fixed); (3) the modelled `map` on identical arguments yields identical
output; (4) across any two slices rendered with the same colormap name and
range, entries holding equal values receive the identical colour. -/
theorem c5_map_deterministic :
    (∀ img1 img2 : Image, img1 = img2 →
        generateHeatmapImage img1 = generateHeatmapImage img2) ∧
      (∀ (img1 img2 o1 o2 : Image) (i j : ℕ) (p q : RGBA),
        generateHeatmapImage img1 = some o1 → generateHeatmapImage img2 = some o2 →
        img1.pixels[i]? = some p → img2.pixels[j]? = some q → p.r = q.r →
        o1.pixels[i]? = o2.pixels[j]?) ∧
      (∀ (s1 s2 : List (List ℚ)) (cmap : String) (vmin vmax : ℚ), s1 = s2 →
        ColorMapper.map s1 cmap vmin vmax = ColorMapper.map s2 cmap vmin vmax) ∧
      (∀ (s1 s2 : List (List ℚ)) (cmap : String) (vmin vmax : ℚ)
        (o1 o2 : List (List (ℕ × ℕ × ℕ))) (i j k l : ℕ) (v : ℚ),
        ColorMapper.map s1 cmap vmin vmax = Except.ok o1 →
        ColorMapper.map s2 cmap vmin vmax = Except.ok o2 →
        sliceGet2 s1 i j = some v → sliceGet2 s2 k l = some v →
        sliceGet2 o1 i j = sliceGet2 o2 k l) := by
  refine ⟨fun img1 img2 h => by rw [h], ?_, fun s1 s2 cmap vmin vmax h => by rw [h], ?_⟩
  · intro img1 img2 o1 o2 i j p q h1 h2 hp hq hrq
    rw [generateHeatmapImage] at h1 h2
    cases hps1 : heatPixels img1.pixels with
    | none => rw [hps1] at h1; simp at h1
    | some ps1 =>
      cases hps2 : heatPixels img2.pixels with
      | none => rw [hps2] at h2; simp at h2
      | some ps2 =>
        rw [hps1, Option.map_some'] at h1
        rw [hps2, Option.map_some'] at h2
        cases h1
        cases h2
        show ps1[i]? = ps2[j]?
        rw [heatPixels_getElem? img1.pixels ps1 hps1 i,
          heatPixels_getElem? img2.pixels ps2 hps2 j, hp, hq, Option.some_bind,
          Option.some_bind]
        exact heatPixel_congr_red p q hrq
  · intro s1 s2 cmap vmin vmax o1 o2 i j k l v h1 h2 hv1 hv2
    rw [ColorMapper.map] at h1 h2
    cases hc : colorScaleStops cmap with
    | none => rw [hc] at h1; simp at h1
    | some stops =>
      rw [hc] at h1 h2
      simp only [Except.ok.injEq] at h1 h2
      subst h1
      subst h2
      rw [sliceGet2_map, sliceGet2_map, hv1, hv2]

/-- Witness for C5: the cross-frame conjunct at two concrete one-pixel
bitmaps agreeing on red. -/
theorem c5_map_deterministic_witness :
    (Image.mk 1 1 [⟨0, 0, 0, 255⟩]).pixels[0]? = (Image.mk 1 1 [⟨0, 0, 0, 255⟩]).pixels[0]? :=
  c5_map_deterministic.2.1 ⟨1, 1, [⟨0, 10, 20, 30⟩]⟩ ⟨1, 1, [⟨0, 99, 98, 97⟩]⟩
    ⟨1, 1, [⟨0, 0, 0, 255⟩]⟩ ⟨1, 1, [⟨0, 0, 0, 255⟩]⟩ 0 0 ⟨0, 10, 20, 30⟩ ⟨0, 99, 98, 97⟩
    (generateHeatmapImage_black 1 1 10 20 30) (generateHeatmapImage_black 1 1 99 98 97)
    rfl rfl rfl

/-- C6 counterexample: with every view empty (the completely empty volume),
both endpoints reject the request with an error instead of returning the
empty per-view sequences — emptiness is conflated with failure, contrary to
the claim. -/
theorem c6_all_views_empty_rejected :
    collectWholeBodyDoseViews [] [] [] =
        Except.error "未生成任何剂量切片，请检查dose_to_png.py的执行日志" ∧
      validateProcessNpyImages [] [] [] = Except.error "未生成任何剂量图像" :=
  ⟨rfl, rfl⟩

/-- C6 amended: emptiness of individual views is tolerated (a missing or
empty view directory contributes an empty list), and the request succeeds
with the per-view lists as long as at least one slice exists in some view;
only the all-views-empty case is rejected with an error. -/
theorem c6_empty_views_tolerated_unless_all_empty (a c s : List String)
    (h : a.length + c.length + s.length ≠ 0) :
    collectWholeBodyDoseViews a c s = Except.ok (a, c, s) ∧
      validateProcessNpyImages a c s = Except.ok (a, c, s) := by
  rw [collectWholeBodyDoseViews, if_neg h, validateProcessNpyImages, if_neg h]
  exact ⟨rfl, rfl⟩

/-- Witness for amended C6: one axial slice, the other two views empty. -/
theorem c6_empty_views_tolerated_witness :
    collectWholeBodyDoseViews ["000.png"] [] [] = Except.ok (["000.png"], [], []) ∧
      validateProcessNpyImages ["000.png"] [] [] = Except.ok (["000.png"], [], []) :=
  c6_empty_views_tolerated_unless_all_empty ["000.png"] [] [] (by simp)

/-- C7 counterexample: `generateHeatmapImage` writes through `setPixelColor`
into its argument and returns that same object, so after a successful call
the caller's input no longer holds its original pixel data: for the one-pixel
input `(0, 10, 20, 30)` the argument ends up holding `(0, 0, 0, 255)`.  This
falsifies both parts of the claim (input unchanged; result a distinct new
object). -/
theorem c7_input_mutated_counterexample :
    generateHeatmapImageCall ⟨1, 1, [⟨0, 10, 20, 30⟩]⟩ =
        some (⟨1, 1, [⟨0, 0, 0, 255⟩]⟩, ⟨1, 1, [⟨0, 0, 0, 255⟩]⟩) ∧
      (⟨1, 1, [⟨0, 0, 0, 255⟩]⟩ : Image) ≠ ⟨1, 1, [⟨0, 10, 20, 30⟩]⟩ := by
  constructor
  · rw [generateHeatmapImageCall, generateHeatmapImage_black]
  · decide

/-- C7 amended: the map operation mutates its input in place — after a
successful call the argument's state coincides with the returned frame, whose
pixels are the heat-mapped pixels of the original input (dimensions kept);
the returned frame is the argument itself, not a distinct new object. -/
theorem c7_inplace_overwrite (img out after : Image)
    (h : generateHeatmapImageCall img = some (out, after)) :
    after = out ∧ out.width = img.width ∧ out.height = img.height ∧
      heatPixels img.pixels = some out.pixels := by
  rw [generateHeatmapImageCall] at h
  cases hg : generateHeatmapImage img with
  | none => rw [hg] at h; simp at h
  | some o =>
    rw [hg] at h
    simp only [Option.some.injEq, Prod.mk.injEq] at h
    obtain ⟨h1, h2⟩ := h
    subst h1
    subst h2
    rw [generateHeatmapImage] at hg
    cases hps : heatPixels img.pixels with
    | none => rw [hps] at hg; simp at hg
    | some ps =>
      rw [hps, Option.map_some'] at hg
      cases hg
      exact ⟨rfl, rfl, rfl, rfl⟩

/-- Witness for amended C7 at the one-pixel input. -/
theorem c7_inplace_overwrite_witness :
    (⟨1, 1, [⟨0, 0, 0, 255⟩]⟩ : Image) = ⟨1, 1, [⟨0, 0, 0, 255⟩]⟩ ∧
      (Image.mk 1 1 [⟨0, 0, 0, 255⟩]).width = (Image.mk 1 1 [⟨0, 10, 20, 30⟩]).width ∧
      (Image.mk 1 1 [⟨0, 0, 0, 255⟩]).height = (Image.mk 1 1 [⟨0, 10, 20, 30⟩]).height ∧
      heatPixels (Image.mk 1 1 [⟨0, 10, 20, 30⟩]).pixels =
        some (Image.mk 1 1 [⟨0, 0, 0, 255⟩]).pixels :=
  c7_inplace_overwrite ⟨1, 1, [⟨0, 10, 20, 30⟩]⟩ ⟨1, 1, [⟨0, 0, 0, 255⟩]⟩
    ⟨1, 1, [⟨0, 0, 0, 255⟩]⟩
    (by rw [generateHeatmapImageCall, generateHeatmapImage_black])

/-- C8 counterexample: the per-slice loop is not atomic.  With a first
readable slice and a second unreadable one, the loop fails, yet the first
persisted file has already been overwritten with its heatmap — the persisted
state after the failed call differs from the state before it. -/
theorem c8_not_atomic_counterexample :
    processView [some ⟨1, 1, [⟨0, 10, 20, 30⟩]⟩, none] =
        ([some ⟨1, 1, [⟨0, 0, 0, 255⟩]⟩, none], false) ∧
      ([some (⟨1, 1, [⟨0, 0, 0, 255⟩]⟩ : Image), none] : List (Option Image)) ≠
        [some ⟨1, 1, [⟨0, 10, 20, 30⟩]⟩, none] := by
  constructor
  · simp only [processView, generateHeatmapImage_black]
  · decide

/-- C8 amended: when the per-slice rendering pass fails at some slice, every
slice before the failing one has already been overwritten with its heatmap,
and the failing slice and its successors are untouched — the persisted state
is the partially overwritten prefix, not the original state. -/
theorem c8_failure_keeps_prefix_overwritten (pre post : List (Option Image))
    (h : ∀ g ∈ pre, (g.bind generateHeatmapImage).isSome = true) :
    processView (pre ++ none :: post) =
      (pre.map (fun g => g.bind generateHeatmapImage) ++ none :: post, false) := by
  induction pre with
  | nil => rfl
  | cons g gs ih =>
    have hg := h g (List.mem_cons_self _ _)
    cases g with
    | none => simp at hg
    | some img =>
      cases hout : generateHeatmapImage img with
      | none => rw [Option.some_bind, hout] at hg; simp at hg
      | some out =>
        have ihh := ih fun x hx => h x (List.mem_cons_of_mem _ hx)
        simp only [List.cons_append, processView, hout, List.map_cons, Option.some_bind,
          List.append_eq, ihh]

/-- Witness for amended C8: one readable slice before the unreadable one. -/
theorem c8_failure_keeps_prefix_overwritten_witness :
    processView ([some ⟨1, 1, [⟨0, 10, 20, 30⟩]⟩] ++ none :: []) =
      ([some (⟨1, 1, [⟨0, 10, 20, 30⟩]⟩ : Image)].map (fun g => g.bind generateHeatmapImage)
        ++ none :: [], false) :=
  c8_failure_keeps_prefix_overwritten [some ⟨1, 1, [⟨0, 10, 20, 30⟩]⟩] []
    (by
      intro g hg
      rw [List.mem_singleton] at hg
      subst hg
      rw [Option.some_bind, generateHeatmapImage_black]
      rfl)

/-- C9: for 8-bit input pixels the colour-table index
`floor((r / 255) * (nshades - 1))` always lies within the 256-entry table, so
the lookup is in bounds, the call succeeds, and every output pixel is written
with alpha exactly 255. -/
theorem c9_lookup_in_bounds_alpha255 (img : Image) (h8 : ∀ p ∈ img.pixels, p.r ≤ 255) :
    (∀ r : ℕ, r ≤ 255 → hotIndex r < hotColormap.length) ∧
      ∃ out, generateHeatmapImage img = some out ∧ ∀ p ∈ out.pixels, p.a = 255 := by
  constructor
  · intro r hr
    rw [hotIndex_eq, hotColormap_length]
    omega
  · obtain ⟨qs, hqs, _⟩ := heatPixels_isSome img.pixels h8
    refine ⟨⟨img.width, img.height, qs⟩,
      by rw [generateHeatmapImage, hqs, Option.map_some'], ?_⟩
    intro p hp
    have hp' : p ∈ qs := hp
    obtain ⟨i, hi⟩ := List.mem_iff_getElem?.mp hp'
    have hx := heatPixels_getElem? img.pixels qs hqs i
    rw [hi] at hx
    cases hpx : img.pixels[i]? with
    | none => rw [hpx] at hx; simp at hx
    | some q =>
      rw [hpx, Option.some_bind] at hx
      exact heatPixel_alpha q p hx.symm

/-- Witness for C9 at a concrete one-pixel bitmap. -/
theorem c9_lookup_in_bounds_alpha255_witness :
    (∀ r : ℕ, r ≤ 255 → hotIndex r < hotColormap.length) ∧
      ∃ out, generateHeatmapImage ⟨1, 1, [⟨0, 10, 20, 30⟩]⟩ = some out ∧
        ∀ p ∈ out.pixels, p.a = 255 :=
  c9_lookup_in_bounds_alpha255 ⟨1, 1, [⟨0, 10, 20, 30⟩]⟩ (by decide)

/-- C10: the output of `generateHeatmapImage` depends only on the red
channel: two inputs of equal dimensions whose pixels agree on red produce
identical heatmaps, whatever their green, blue and alpha channels. -/
theorem c10_red_channel_determines_output (img1 img2 : Image) (hw : img1.width = img2.width)
    (hh : img1.height = img2.height)
    (hr : img1.pixels.map RGBA.r = img2.pixels.map RGBA.r) :
    generateHeatmapImage img1 = generateHeatmapImage img2 := by
  rw [generateHeatmapImage, generateHeatmapImage, heatPixels_congr_red _ _ hr, hw, hh]

/-- Witness for C10: two one-pixel bitmaps sharing red 0 but differing in
green, blue and alpha. -/
theorem c10_red_channel_determines_output_witness :
    generateHeatmapImage ⟨1, 1, [⟨0, 10, 20, 30⟩]⟩ =
      generateHeatmapImage ⟨1, 1, [⟨0, 99, 98, 97⟩]⟩ :=
  c10_red_channel_determines_output ⟨1, 1, [⟨0, 10, 20, 30⟩]⟩ ⟨1, 1, [⟨0, 99, 98, 97⟩]⟩
    rfl rfl rfl
